import Mathlib

/-!
Shallow embedding of the execution core of the ot-dsim big-number
coprocessor simulator (`bignum_lib/machine.py`), together with theorems
checking the natural-language specification against it.

Python integers are modelled as `Nat` (or `Int` where negative values can
occur), Python lists as `List`, the breakpoint dictionary as an
association list, fallible operations as `Except String`.  Python
truthiness tests on optional integers (`if jump_addr:`, `if valid_limb:`,
`if not stop_addr:`) are modelled by `opt_truthy` / `opt_truthy_int`,
which are false exactly for `none` and for `some 0`, matching the source.
-/

namespace OtDsim

/-! ## Constants (class attributes of `Machine`) -/

def NUM_REGS : Nat := 32
def XLEN : Nat := 256
def LIMBS : Nat := 8
def DMEM_DEPTH : Nat := 128
def IMEM_DEPTH : Nat := 1024
def LOOP_STACK_SIZE : Nat := 16
def CALL_STACK_SIZE : Nat := 16

/-- Derived constant `limb_width = XLEN / LIMBS` (= 32). -/
def limb_width : Nat := XLEN / LIMBS

/-- Derived constant `limb_mask = 2 ** limb_width - 1`. -/
def limb_mask : Nat := 2 ^ limb_width - 1

/-- Derived constant `half_limb_width = XLEN / LIMBS / 2` (= 16). -/
def half_limb_width : Nat := XLEN / LIMBS / 2

/-- Derived constant `half_limb_mask = 2 ** half_limb_width - 1`. -/
def half_limb_mask : Nat := 2 ^ half_limb_width - 1

/-- Derived constant `xlen_mask = 2 ** XLEN - 1`. -/
def xlen_mask : Nat := 2 ^ XLEN - 1

/-! ## Data model -/

/-- A loop-stack frame `(cnt, end_addr, start_addr)` as pushed by
`push_loop_stack`.  The top of the Python list (its last element) is the
head of the Lean list. -/
structure LoopFrame where
  cnt : Nat
  end_addr : Nat
  start_addr : Nat
deriving DecidableEq

/-- The `force_break` tuple
`(active, consider_callstack, callstack, consider_loopstack, loopstack)`. -/
structure ForceBreak where
  active : Bool
  consider_callstack : Bool
  callstack : Nat
  consider_loopstack : Bool
  loopstack : Nat
deriving DecidableEq

/-- The cleared force-break state `(False, False, 0, False, 0)`. -/
def fb_clear : ForceBreak := ⟨false, false, 0, false, 0⟩

/-- The mutable state of one `Machine` instance.  The instruction memory
holds opaque instruction objects, so only its length is carried here; the
instructions themselves enter through the `exec` parameter of `step`.
`breakpoints` is the address → (required passes, pass counter) dictionary,
kept as an association list. -/
structure Machine where
  M : Bool
  L : Bool
  Z : Bool
  C : Bool
  XM : Bool
  XL : Bool
  XZ : Bool
  XC : Bool
  r : List Nat
  mod : Nat
  dmp : Nat
  rfp : Nat
  lc : Nat
  rnd : Nat
  r_valid_half_limbs : List (List Bool)
  dmem : List Nat
  init_dmem : List Bool
  imem_len : Nat
  loop_stack : List LoopFrame
  call_stack : List Nat
  pc : Nat
  stop_addr : Int
  breakpoints : List (Nat × Nat × Nat)
  force_break : ForceBreak
  finishFlag : Bool
deriving DecidableEq

/-- Python truthiness of an optional non-negative integer argument:
`None` and `0` are falsy, every other value truthy. -/
def opt_truthy : Option Nat → Bool
  | none => false
  | some n => n != 0

/-- Python truthiness of an optional (possibly negative) integer:
`None` and `0` are falsy, every other value truthy. -/
def opt_truthy_int : Option Int → Bool
  | none => false
  | some j => j != 0

/-! ## Register file -/

/-- `Machine.__get_limb_from_reg_val`: extract a specific limb from a
register value. -/
def get_limb_from_reg_val (lidx regval : Nat) : Except String Nat :=
  if lidx ≥ LIMBS then Except.error "IndexError" else
  if regval > xlen_mask then Except.error "OverflowError" else
  Except.ok ((regval >>> (lidx * limb_width)) &&& limb_mask)

/-- `Machine.__mod_limb_in_reg_val`: modify a specific limb in a register
value.  Note the source builds the clearing mask from `half_limb_mask`,
not `limb_mask`. -/
def mod_limb_in_reg_val (lidx regval limbval : Nat) : Except String Nat :=
  if lidx ≥ LIMBS then Except.error "IndexError" else
  if regval > xlen_mask then Except.error "OverflowError" else
  if limbval > limb_mask then Except.error "OverflowError" else
  let mask := half_limb_mask <<< (lidx * limb_width)
  let masked_reg := regval ||| mask
  let masked_reg2 := masked_reg ^^^ mask
  Except.ok (masked_reg2 ||| (limbval <<< (lidx * limb_width)))

/-- `Machine.get_reg` for an integer (general-register) reference. -/
def get_reg (m : Machine) (ridx : Nat) : Except String Nat :=
  if ridx ≥ NUM_REGS then Except.error "IndexError" else
  Except.ok (m.r.getD ridx 0)

/-- The special-register names accepted by `get_reg`/`set_reg` when the
reference is a string. -/
inductive SpecialReg where
  | mod
  | dmp
  | rfp
  | lc
  | rnd
deriving DecidableEq

/-- `Machine.get_reg` for a string (special-register) reference. -/
def get_reg_s (m : Machine) : SpecialReg → Nat
  | SpecialReg.mod => m.mod
  | SpecialReg.dmp => m.dmp
  | SpecialReg.rfp => m.rfp
  | SpecialReg.lc => m.lc
  | SpecialReg.rnd => m.rnd

/-- `Machine.set_reg` for an integer (general-register) reference.  The
half-limb-validity row of the target register is updated according to the
`valid_limb` / `valid_half_limb` hints; both are tested with Python
truthiness, so a hint of `0` falls through to the next branch. -/
def set_reg (m : Machine) (ridx : Nat) (value : Nat)
    (valid_limb : Option Nat := none) (valid_half_limb : Option Nat := none) :
    Except String Machine :=
  if value > xlen_mask then Except.error "OverflowError" else
  if ridx ≥ NUM_REGS then Except.error "IndexError" else
  let row := m.r_valid_half_limbs.getD ridx []
  let row2 :=
    if opt_truthy valid_limb then
      (row.set (valid_limb.getD 0 * 2) true).set (valid_limb.getD 0 * 2 + 1) true
    else if opt_truthy valid_half_limb then
      row.set (valid_half_limb.getD 0) true
    else
      List.replicate (LIMBS * 2) true
  Except.ok { m with r_valid_half_limbs := m.r_valid_half_limbs.set ridx row2,
                     r := m.r.set ridx value }

/-- `Machine.set_reg` for a string (special-register) reference: no
validity tracking. -/
def set_reg_s (m : Machine) (sr : SpecialReg) (value : Nat) : Except String Machine :=
  if value > xlen_mask then Except.error "OverflowError" else
  Except.ok (match sr with
    | SpecialReg.mod => { m with mod := value }
    | SpecialReg.dmp => { m with dmp := value }
    | SpecialReg.rfp => { m with rfp := value }
    | SpecialReg.lc => { m with lc := value }
    | SpecialReg.rnd => { m with rnd := value })

/-- `Machine.get_reg_limb`. -/
def get_reg_limb (m : Machine) (ridx lidx : Nat) : Except String Nat := do
  let rv ← get_reg m ridx
  get_limb_from_reg_val lidx rv

/-- `Machine.set_reg_limb`. -/
def set_reg_limb (m : Machine) (ridx lidx value : Nat) : Except String Machine := do
  let rv ← get_reg m ridx
  let nv ← mod_limb_in_reg_val lidx rv value
  set_reg m ridx nv (some lidx) none

/-! ## Flags -/

/-- `Machine.__test_bit`. -/
def test_bit (testval pos : Nat) : Bool :=
  let mask := 1 <<< pos
  (testval &&& mask) != 0

/-- `Machine.set_z_m_l`. -/
def set_z_m_l (m : Machine) (val : Nat) : Machine :=
  { m with Z := (val &&& xlen_mask) == 0,
           M := test_bit val (XLEN - 1),
           L := test_bit val 0 }

/-- `Machine.set_c_z_m_l`. -/
def set_c_z_m_l (m : Machine) (val : Nat) : Machine :=
  let m1 := set_z_m_l m val
  { m1 with C := test_bit val XLEN }

/-! ## Loop and call stacks -/

/-- `Machine.push_loop_stack`. -/
def push_loop_stack (m : Machine) (cnt end_addr start_addr : Nat) :
    Except String Machine :=
  if start_addr ≥ m.imem_len then Except.error "IndexError" else
  if end_addr ≥ m.imem_len then Except.error "IndexError" else
  if m.loop_stack.length = LOOP_STACK_SIZE then Except.error "Loop stack overflow" else
  Except.ok { m with loop_stack := ⟨cnt, end_addr, start_addr⟩ :: m.loop_stack }

/-- `Machine.dec_top_loop_cnt`: decrement the loop counter on top of the
stack if nonzero, returning whether the loop runs again. -/
def dec_top_loop_cnt (m : Machine) : Except String (Machine × Bool) :=
  match m.loop_stack with
  | [] => Except.error "Nothing on loop stack to decrement"
  | f :: rest =>
    if f.cnt ≠ 0 then
      Except.ok ({ m with loop_stack := ⟨f.cnt - 1, f.end_addr, f.start_addr⟩ :: rest }, true)
    else
      Except.ok (m, false)

/-- `Machine.pop_loop_stack`. -/
def pop_loop_stack (m : Machine) : Except String (Machine × Nat) :=
  match m.loop_stack with
  | [] => Except.error "Loop stack underrun"
  | f :: rest => Except.ok ({ m with loop_stack := rest }, f.start_addr)

/-- `Machine.push_call_stack`. -/
def push_call_stack (m : Machine) (address : Nat) : Except String Machine :=
  if address ≥ m.imem_len then Except.error "IndexError" else
  if m.call_stack.length = CALL_STACK_SIZE then Except.error "Call stack overflow" else
  Except.ok { m with call_stack := address :: m.call_stack }

/-- `Machine.pop_call_stack`. -/
def pop_call_stack (m : Machine) : Except String (Machine × Nat) :=
  match m.call_stack with
  | [] => Except.error "Call stack underrun"
  | a :: rest => Except.ok ({ m with call_stack := rest }, a)

/-! ## Breakpoint engine -/

/-- Lookup in the breakpoint dictionary. -/
def bp_lookup (bps : List (Nat × Nat × Nat)) (addr : Nat) : Option (Nat × Nat) :=
  match bps with
  | [] => none
  | (a, pc0) :: rest => if a = addr then some pc0 else bp_lookup rest addr

/-- Dictionary assignment `breakpoints[addr] = (p, c)`: replace the entry
if the key is present, otherwise append it. -/
def bp_set (bps : List (Nat × Nat × Nat)) (addr p c : Nat) : List (Nat × Nat × Nat) :=
  match bps with
  | [] => [(addr, p, c)]
  | (a, pc0) :: rest =>
    if a = addr then (addr, p, c) :: rest else (a, pc0) :: bp_set rest addr p c

/-- Dictionary deletion `del breakpoints[addr]`. -/
def bp_remove (bps : List (Nat × Nat × Nat)) (addr : Nat) : List (Nat × Nat × Nat) :=
  match bps with
  | [] => []
  | (a, pc0) :: rest =>
    if a = addr then rest else (a, pc0) :: bp_remove rest addr

/-- `Machine.toggle_breakpoint` for an integer address (the label/function
string path goes through the external assembly context and is out of
scope here).  An address already in the table is removed; a new address is
installed with pass counter 1 when it is inside `IMEM_DEPTH`, and ignored
(error printed) otherwise. -/
def toggle_breakpoint (m : Machine) (addr : Nat) (passes : Nat := 1) : Machine :=
  match bp_lookup m.breakpoints addr with
  | some _ => { m with breakpoints := bp_remove m.breakpoints addr }
  | none =>
    if addr < IMEM_DEPTH then
      { m with breakpoints := bp_set m.breakpoints addr passes 1 }
    else m

/-- The persistent-breakpoint part of `Machine.__check_break`: when the
current pc has an entry `(passes, cnt)`, break with the counter reset to 1
if `cnt == passes`, otherwise advance the counter silently. -/
def check_break_bps (m : Machine) : Machine × Bool × Nat :=
  if m.breakpoints ≠ [] then
    match bp_lookup m.breakpoints m.pc with
    | some (passes, cnt) =>
      if cnt = passes then
        ({ m with breakpoints := bp_set m.breakpoints m.pc passes 1 }, true, passes)
      else
        ({ m with breakpoints := bp_set m.breakpoints m.pc passes (cnt + 1) }, false, 0)
    | none => (m, false, 0)
  else (m, false, 0)

/-- `Machine.__check_break`: the force-break override is evaluated first
(loop-stack condition, then call-stack condition, then the plain
single-step case); when one of its conditions fires it clears itself and
breaks without touching the persistent table.  Otherwise the persistent
breakpoints are consulted.  Returns the machine, whether to break, and
the pass count reported for the break. -/
def check_break (m : Machine) : Machine × Bool × Nat :=
  if m.force_break.active then
    if m.force_break.consider_loopstack
        && (m.loop_stack.length == m.force_break.loopstack) then
      ({ m with force_break := fb_clear }, true, 0)
    else if m.force_break.consider_callstack
        && (m.call_stack.length == m.force_break.callstack) then
      ({ m with force_break := fb_clear }, true, 0)
    else if !m.force_break.consider_callstack && !m.force_break.consider_loopstack then
      ({ m with force_break := fb_clear }, true, 0)
    else check_break_bps m
  else check_break_bps m

/-! ## Reset, register clearing, construction -/

/-- `Machine.clear_regs`. -/
def clear_regs (m : Machine) : Machine :=
  { m with dmp := 0, rfp := 0, lc := 0, rnd := 1, pc := 0, mod := 0,
           r := List.replicate NUM_REGS 0 }

/-- `Machine.reset`: reinitialize flags, validity tracking, memory, both
stacks, program counter and stop address; optionally clear the registers.
A supplied `stop_addr` is tested with `if not stop_addr:`, so `none` and
`some 0` both select the default of the last instruction index. -/
def reset (m : Machine) (dmem : List Nat) (imem_len : Nat) (s_addr : Nat := 0)
    (stop_addr : Option Int := none) (creg : Bool := false) : Machine :=
  let m1 := { m with M := false, L := false, Z := false, C := false,
                     XM := false, XL := false, XC := false, XZ := false }
  let m2 := if creg then clear_regs m1 else m1
  { m2 with
    r_valid_half_limbs := List.replicate NUM_REGS (List.replicate (LIMBS * 2) false),
    dmem := dmem ++ List.replicate (DMEM_DEPTH - dmem.length) 0,
    init_dmem := List.replicate dmem.length true
                 ++ List.replicate (DMEM_DEPTH - dmem.length) false,
    imem_len := imem_len,
    loop_stack := [],
    call_stack := [],
    pc := s_addr,
    stop_addr := if opt_truthy_int stop_addr then stop_addr.getD 0
                 else (imem_len : Int) - 1 }

/-- The state a fresh instance starts from before `__init__` runs `reset`:
class-attribute defaults for `breakpoints` and `force_break`, and
`finishFlag = False`; every other field is overwritten by the reset. -/
def empty_machine : Machine :=
  { M := false, L := false, Z := false, C := false,
    XM := false, XL := false, XZ := false, XC := false,
    r := List.replicate NUM_REGS 0,
    mod := 0, dmp := 0, rfp := 0, lc := 0, rnd := 0,
    r_valid_half_limbs := List.replicate NUM_REGS (List.replicate (LIMBS * 2) false),
    dmem := [], init_dmem := [],
    imem_len := 0, loop_stack := [], call_stack := [],
    pc := 0, stop_addr := 0,
    breakpoints := [], force_break := fb_clear, finishFlag := false }

/-- `Machine.__init__`: construction is a reset with register clearing. -/
def init_machine (dmem : List Nat) (imem_len : Nat) (s_addr : Nat := 0)
    (stop_addr : Option Int := none) : Machine :=
  reset empty_machine dmem imem_len s_addr stop_addr true

/-! ## Step orchestration -/

/-- The loop-epilogue part of `Machine.step` (source lines 785-790): when
the loop stack is non-empty and the pc sits on the top frame's end
address, decrement the top count; if the loop runs again the jump target
is overridden with the frame's start address, otherwise the frame is
popped and the jump target from `execute` stands. -/
def loop_epilogue (m : Machine) (ja : Option Int) : Machine × Option Int :=
  match m.loop_stack with
  | [] => (m, ja)
  | f :: rest =>
    if m.pc = f.end_addr then
      if f.cnt ≠ 0 then
        ({ m with loop_stack := ⟨f.cnt - 1, f.end_addr, f.start_addr⟩ :: rest },
         some (Int.ofNat f.start_addr))
      else
        ({ m with loop_stack := rest }, ja)
    else (m, ja)

/-- `Machine.step`.  The externally supplied pieces are `exec` (the
instruction object's `execute`, which may mutate the whole machine and
return an optional jump target) and `onBreak` (the state effect of the
interactive break-command session; plain continue is the identity).  The
returned `Bool` is the continue flag; a jump target is tested with
`if jump_addr:`, so `none` and `some 0` both take the fall-through path,
and a truthy jump target outside instruction memory is a fatal error. -/
def step (onBreak : Machine → Machine) (exec : Machine → Machine × Option Int)
    (m : Machine) : Except String (Machine × Bool) :=
  let halt := (Int.ofNat m.pc) == m.stop_addr
  let cbr := check_break m
  let m1 := if cbr.2.1 then onBreak cbr.1 else cbr.1
  if m1.pc ≥ m1.imem_len then Except.error "IndexError" else
  let er := exec m1
  let le := loop_epilogue er.1 er.2
  let m3 := le.1
  let jump_addr := le.2
  let res : Except String (Machine × Bool) :=
    if opt_truthy_int jump_addr then
      let j := jump_addr.getD 0
      if j < 0 ∨ (m3.imem_len : Int) ≤ j then Except.error "Invalid jump address"
      else Except.ok ({ m3 with pc := j.toNat }, true)
    else
      if m3.pc + 1 ≥ m3.imem_len then Except.ok (m3, false)
      else Except.ok ({ m3 with pc := m3.pc + 1 }, true)
  res.map (fun p => (p.1, if halt then false else p.2))

/-! ## Helper lemmas and concrete machines -/

/-- Iterate `dec_top_loop_cnt` a number of times, keeping the machine
unchanged on the (here unreachable) error case. -/
def dec_iter (m : Machine) : Nat → Machine
  | 0 => m
  | k + 1 =>
    match dec_top_loop_cnt (dec_iter m k) with
    | Except.ok p => p.1
    | Except.error _ => dec_iter m k

theorem dec_iter_le (N e s : Nat) (rest : List LoopFrame) (m : Machine)
    (h : m.loop_stack = ⟨N, e, s⟩ :: rest) :
    ∀ k, k ≤ N → dec_iter m k = { m with loop_stack := ⟨N - k, e, s⟩ :: rest } := by
  intro k
  induction k with
  | zero =>
    intro _
    show m = { m with loop_stack := ⟨N - 0, e, s⟩ :: rest }
    rw [Nat.sub_zero, ← h]
  | succ k ih =>
    intro hk
    have hik := ih (Nat.le_of_succ_le hk)
    have hcnt : N - k ≠ 0 := by omega
    have hsub : N - k - 1 = N - (k + 1) := by omega
    show (match dec_top_loop_cnt (dec_iter m k) with
          | Except.ok p => p.1
          | Except.error _ => dec_iter m k) = _
    rw [hik]
    simp only [dec_top_loop_cnt, if_pos hcnt, hsub]

theorem bp_lookup_set_self (bps : List (Nat × Nat × Nat)) (addr p c : Nat) :
    bp_lookup (bp_set bps addr p c) addr = some (p, c) := by
  induction bps with
  | nil => simp [bp_set, bp_lookup]
  | cons hd tl ih =>
    obtain ⟨a, pc0⟩ := hd
    by_cases hae : a = addr <;> simp [bp_set, bp_lookup, hae, ih]

theorem bp_lookup_set_ne (bps : List (Nat × Nat × Nat)) (addr a p c : Nat)
    (hne : a ≠ addr) :
    bp_lookup (bp_set bps addr p c) a = bp_lookup bps a := by
  induction bps with
  | nil => simp [bp_set, bp_lookup, Ne.symm hne]
  | cons hd tl ih =>
    obtain ⟨b, pc0⟩ := hd
    by_cases hbe : b = addr
    · subst hbe
      simp [bp_set, bp_lookup, Ne.symm hne]
    · simp [bp_set, bp_lookup, hbe, ih]

theorem bp_lookup_eq_none (bps : List (Nat × Nat × Nat)) (addr : Nat)
    (h : addr ∉ bps.map Prod.fst) : bp_lookup bps addr = none := by
  induction bps with
  | nil => rfl
  | cons hd tl ih =>
    obtain ⟨a, pc0⟩ := hd
    simp only [List.map_cons, List.mem_cons, not_or] at h
    have : a ≠ addr := fun hc => h.1 hc.symm
    simp [bp_lookup, this, ih h.2]

theorem bp_lookup_remove_self (bps : List (Nat × Nat × Nat)) (addr : Nat)
    (hnd : (bps.map Prod.fst).Nodup) :
    bp_lookup (bp_remove bps addr) addr = none := by
  induction bps with
  | nil => rfl
  | cons hd tl ih =>
    obtain ⟨a, pc0⟩ := hd
    simp only [List.map_cons, List.nodup_cons] at hnd
    by_cases hae : a = addr
    · subst hae
      simpa [bp_remove] using bp_lookup_eq_none tl a hnd.1
    · simp [bp_remove, bp_lookup, hae, ih hnd.2]

theorem bp_lookup_remove_ne (bps : List (Nat × Nat × Nat)) (addr a : Nat)
    (hne : a ≠ addr) :
    bp_lookup (bp_remove bps addr) a = bp_lookup bps a := by
  induction bps with
  | nil => rfl
  | cons hd tl ih =>
    obtain ⟨b, pc0⟩ := hd
    by_cases hbe : b = addr
    · subst hbe
      simp [bp_remove, bp_lookup, Ne.symm hne]
    · simp [bp_remove, bp_lookup, hbe, ih]

theorem test_bit_eq_testBit (v p : Nat) : test_bit v p = Nat.testBit v p := by
  simp only [test_bit, Nat.one_shiftLeft, Nat.and_two_pow]
  cases h : Nat.testBit v p
  · simp
  · simp [bne_iff_ne, (Nat.two_pow_pos p).ne']

/-- A machine on a 5-instruction program with a two-iteration loop frame
(count 2, end address 1, start address 0) on the loop stack. -/
def mLoop : Machine := { init_machine [] 5 with loop_stack := [⟨2, 1, 0⟩] }

/-- A machine whose force-break state is armed with no depth targets
(plain single-step). -/
def mForce : Machine := { init_machine [] 5 with force_break := ⟨true, false, 0, false, 0⟩ }

/-! ## Claim theorems -/

/-- C7: for every loop frame pushed with iteration count N on top of a
stack of any depth, the first N calls of `dec_top_loop_cnt` return true,
each decrementing the remaining count by one; every subsequent call
returns false leaving the frame and the rest of the stack (and the whole
machine) unchanged; calling it on an empty loop stack fails. -/
theorem C7_dec_top_loop_cnt (N e s : Nat) (rest : List LoopFrame) (m : Machine)
    (h : m.loop_stack = ⟨N, e, s⟩ :: rest) :
    (∀ k, k < N →
      dec_top_loop_cnt (dec_iter m k) =
        Except.ok ({ m with loop_stack := ⟨N - (k + 1), e, s⟩ :: rest }, true)) ∧
    (∀ k, N ≤ k →
      dec_iter m k = { m with loop_stack := ⟨0, e, s⟩ :: rest } ∧
      dec_top_loop_cnt (dec_iter m k) = Except.ok (dec_iter m k, false)) ∧
    (∀ m2 : Machine, m2.loop_stack = [] →
      dec_top_loop_cnt m2 = Except.error "Nothing on loop stack to decrement") := by
  refine ⟨?_, ?_, ?_⟩
  · intro k hk
    rw [dec_iter_le N e s rest m h k (Nat.le_of_lt hk)]
    have hcnt : N - k ≠ 0 := by omega
    have hsub : N - k - 1 = N - (k + 1) := by omega
    simp only [dec_top_loop_cnt, if_pos hcnt, hsub]
  · intro k hk
    have hbase : ∀ k2, N ≤ k2 → dec_iter m k2 = { m with loop_stack := ⟨0, e, s⟩ :: rest } := by
      intro k2
      induction k2 with
      | zero =>
        intro hk2
        have hN : N = 0 := Nat.le_zero.mp hk2
        subst hN
        exact dec_iter_le 0 e s rest m h 0 (Nat.le_refl 0)
      | succ k2 ih =>
        intro hk2
        rcases Nat.lt_or_ge k2 N with hlt | hge
        · have hk2N : k2 + 1 = N := by omega
          have := dec_iter_le N e s rest m h (k2 + 1) (by omega)
          rw [this, hk2N, Nat.sub_self]
        · have hik := ih hge
          show (match dec_top_loop_cnt (dec_iter m k2) with
                | Except.ok p => p.1
                | Except.error _ => dec_iter m k2) = _
          rw [hik]
          simp [dec_top_loop_cnt]
    refine ⟨hbase k hk, ?_⟩
    rw [hbase k hk]
    simp [dec_top_loop_cnt]
  · intro m2 h2
    simp [dec_top_loop_cnt, h2]

/-- C7 witness: on a concrete machine with loop count 2, the first call
decrements to 1 and returns true, and after two calls the counter is
exhausted and a further call returns false without mutation. -/
theorem C7_dec_top_loop_cnt_witness :
    dec_top_loop_cnt (dec_iter mLoop 0) =
      Except.ok ({ mLoop with loop_stack := ⟨2 - (0 + 1), 1, 0⟩ :: [] }, true) ∧
    dec_iter mLoop 2 = { mLoop with loop_stack := ⟨0, 1, 0⟩ :: [] } ∧
    dec_top_loop_cnt (dec_iter mLoop 2) = Except.ok (dec_iter mLoop 2, false) :=
  ⟨(C7_dec_top_loop_cnt 2 1 0 [] mLoop rfl).1 0 (by decide),
   (C7_dec_top_loop_cnt 2 1 0 [] mLoop rfl).2.1 2 (by decide)⟩

/-- C9: when force-break is active with neither a call-stack nor a
loop-stack depth target, the breakpoint check breaks, clears the
force-break state, and leaves everything else (in particular the
persistent breakpoint table) unchanged. -/
theorem C9_force_break_plain (m : Machine)
    (h1 : m.force_break.active = true)
    (h2 : m.force_break.consider_callstack = false)
    (h3 : m.force_break.consider_loopstack = false) :
    check_break m = ({ m with force_break := fb_clear }, true, 0) := by
  simp [check_break, h1, h2, h3]

/-- C9 witness: the plain single-step force-break fires on a concrete
machine and clears itself. -/
theorem C9_force_break_plain_witness :
    check_break mForce = ({ mForce with force_break := fb_clear }, true, 0) :=
  C9_force_break_plain mForce rfl rfl rfl

/-- C10: `reset` never modifies the breakpoint table or the force-break
state, whether or not register clearing is requested. -/
theorem C10_reset_preserves_break_state (m : Machine) (dmem : List Nat)
    (il s : Nat) (st : Option Int) (cr : Bool) :
    (reset m dmem il s st cr).breakpoints = m.breakpoints ∧
    (reset m dmem il s st cr).force_break = m.force_break := by
  cases cr <;> simp [reset, clear_regs]

/-- C2 counterexample: resetting a 3-instruction machine with the
explicitly supplied stop address 0 yields the default stop address 2 (the
last instruction index), not 0. -/
theorem C2_stop_addr_counterexample :
    (reset empty_machine [] 3 0 (some 0) false).stop_addr = 2 ∧ (2 : Int) ≠ 0 :=
  ⟨rfl, by decide⟩

/-- C2 amended: an explicitly supplied nonzero stop address S becomes the
configured stop address; the default of the last instruction index is
used when no stop address is supplied or when the supplied stop address
is 0 (which the source treats as absent). -/
theorem C2_stop_addr (m : Machine) (dmem : List Nat) (il s : Nat) (j : Int) (cr : Bool)
    (hj : j ≠ 0) :
    (reset m dmem il s (some j) cr).stop_addr = j ∧
    (reset m dmem il s none cr).stop_addr = (il : Int) - 1 ∧
    (reset m dmem il s (some 0) cr).stop_addr = (il : Int) - 1 := by
  refine ⟨?_, ?_, ?_⟩ <;> cases cr <;>
    simp [reset, clear_regs, opt_truthy_int, hj]

/-- C2 witness: supplying stop address 2 to a 3-instruction machine
configures stop address 2. -/
theorem C2_stop_addr_witness :
    (reset empty_machine [] 3 0 (some 2) false).stop_addr = 2 :=
  (C2_stop_addr empty_machine [] 3 0 2 false (by decide)).1

/-- C5 counterexample: after construction the special register rnd reads
1, not 0. -/
theorem C5_clear_regs_counterexample :
    get_reg_s (init_machine [] 1) SpecialReg.rnd = 1 ∧ (1 : Nat) ≠ 0 :=
  ⟨rfl, by decide⟩

/-- C5 amended: after construction or any reset with register clearing
requested, every one of the 32 general registers and the special
registers mod, dmp, rfp and lc read zero, while rnd reads 1. -/
theorem C5_clear_regs (m : Machine) (dmem : List Nat) (il s : Nat) (st : Option Int) :
    (∀ i, i < NUM_REGS → get_reg (reset m dmem il s st true) i = Except.ok 0) ∧
    get_reg_s (reset m dmem il s st true) SpecialReg.mod = 0 ∧
    get_reg_s (reset m dmem il s st true) SpecialReg.dmp = 0 ∧
    get_reg_s (reset m dmem il s st true) SpecialReg.rfp = 0 ∧
    get_reg_s (reset m dmem il s st true) SpecialReg.lc = 0 ∧
    get_reg_s (reset m dmem il s st true) SpecialReg.rnd = 1 ∧
    init_machine dmem il s st = reset empty_machine dmem il s st true := by
  refine ⟨?_, rfl, rfl, rfl, rfl, rfl, rfl⟩
  intro i hi
  simp [get_reg, reset, clear_regs, Nat.not_le.mpr hi, List.getD,
        List.getElem?_replicate, hi]

/-- C5 witness: on a concretely constructed machine, register 0 reads 0
and rnd reads 1. -/
theorem C5_clear_regs_witness :
    get_reg (reset empty_machine [] 1 0 none true) 0 = Except.ok 0 ∧
    get_reg_s (reset empty_machine [] 1 0 none true) SpecialReg.rnd = 1 :=
  ⟨(C5_clear_regs empty_machine [] 1 0 none).1 0 (by decide),
   (C5_clear_regs empty_machine [] 1 0 none).2.2.2.2.2.1⟩

/-- A machine whose register 0 holds 65536 (bit 16 set: the upper half of
limb 0 is nonzero). -/
def mLimb : Machine := { init_machine [] 1 with r := (init_machine [] 1).r.set 0 65536 }

/-- C3: writing limb 0 of a register whose limb 0 currently holds 65536
with the value 0 and reading the limb back yields 65536, not the written
value 0: `__mod_limb_in_reg_val` clears only the lower half-limb (its
mask is built from `half_limb_mask` instead of `limb_mask`), so the stale
upper half of the limb survives the write. -/
theorem C3_set_limb_bug_eval :
    (set_reg_limb mLimb 0 0 0).map (fun m2 => get_reg_limb m2 0 0) =
      Except.ok (Except.ok 65536) ∧ (65536 : Nat) ≠ 0 :=
  ⟨rfl, by decide⟩

/-- C4 counterexample: on a freshly constructed machine (all validity
slots false), a register set with limb hint 0 marks validity slot 4 of
register 0 — a slot other than 2*0 and 2*0+1 — as valid, because the hint
is tested with Python truthiness and a hint of 0 falls through to the
whole-register case. -/
theorem C4_valid_limb_counterexample :
    (set_reg (init_machine [] 1) 0 5 (some 0) none).map
        (fun m2 => (m2.r_valid_half_limbs.getD 0 []).getD 4 false) = Except.ok true ∧
    ((init_machine [] 1).r_valid_half_limbs.getD 0 []).getD 4 false = false :=
  ⟨rfl, rfl⟩

/-- C4 amended: a set with limb hint l ∈ [1,7] marks exactly the two
half-limb validity slots 2l and 2l+1 of the target register as valid,
leaving all other validity slots of all registers unchanged; a set with
limb hint 0 instead marks all 16 slots of the target register valid (the
truthiness test on the hint treats 0 like the whole-register default). -/
theorem C4_valid_limb (m : Machine) (ridx l value : Nat)
    (hr : ridx < NUM_REGS) (hv : value ≤ xlen_mask)
    (hlen : m.r_valid_half_limbs.length = NUM_REGS) (hl : l ≤ 7) :
    ∃ m2, set_reg m ridx value (some l) none = Except.ok m2 ∧
      m2.r = m.r.set ridx value ∧
      (∀ r2, r2 ≠ ridx →
        m2.r_valid_half_limbs.getD r2 [] = m.r_valid_half_limbs.getD r2 []) ∧
      (1 ≤ l → m2.r_valid_half_limbs.getD ridx [] =
        ((m.r_valid_half_limbs.getD ridx []).set (l * 2) true).set (l * 2 + 1) true) ∧
      (l = 0 → m2.r_valid_half_limbs.getD ridx [] = List.replicate (LIMBS * 2) true) := by
  have h1 : ¬ (value > xlen_mask) := Nat.not_lt.mpr hv
  have h2 : ¬ (ridx ≥ NUM_REGS) := Nat.not_le.mpr hr
  have hrl : ridx < m.r_valid_half_limbs.length := by rw [hlen]; exact hr
  simp only [set_reg, if_neg h1, if_neg h2]
  refine ⟨_, rfl, rfl, ?_, ?_, ?_⟩
  · intro r2 hne
    simp [List.getD, List.getElem?_set_ne (Ne.symm hne)]
  · intro hge
    have ht : opt_truthy (some l) = true := by
      simp [opt_truthy, bne_iff_ne]
      omega
    simp [ht, List.getD, List.getElem?_set_self hrl]
  · intro h0
    subst h0
    simp [opt_truthy, List.getD, List.getElem?_set_self hrl]

/-- C4 witness: setting register 0 with limb hint 3 on a fresh machine
yields slots 6 and 7 valid and every other slot unchanged. -/
theorem C4_valid_limb_witness :
    ∃ m2, set_reg (init_machine [] 1) 0 5 (some 3) none = Except.ok m2 ∧
      m2.r = (init_machine [] 1).r.set 0 5 ∧
      (∀ r2, r2 ≠ 0 →
        m2.r_valid_half_limbs.getD r2 [] =
          (init_machine [] 1).r_valid_half_limbs.getD r2 []) ∧
      (1 ≤ 3 → m2.r_valid_half_limbs.getD 0 [] =
        (((init_machine [] 1).r_valid_half_limbs.getD 0 []).set (3 * 2) true).set
          (3 * 2 + 1) true) ∧
      (3 = 0 → m2.r_valid_half_limbs.getD 0 [] = List.replicate (LIMBS * 2) true) :=
  C4_valid_limb (init_machine [] 1) 0 3 5 (by decide) (by decide) rfl (by decide)

/-- C6 counterexample: `set_c_z_m_l` with the value 2^257 leaves C false
even though 2^257 ≥ 2^256, because C is bit 256 of the value, not the
comparison with 2^256. -/
theorem C6_flags_counterexample :
    (set_c_z_m_l empty_machine (2 ^ 257)).C = false ∧ 2 ^ 256 ≤ 2 ^ 257 :=
  ⟨rfl, Nat.pow_le_pow_right (by omega) (by omega)⟩

/-- C6 amended: for every non-negative value, `set_c_z_m_l value` sets Z
to ((value mod 2^256) == 0), M to bit 255 of value, L to bit 0 of value,
and C to bit 256 of value; whenever value < 2^257 (every
256-bit-plus-one-bit result), C is therefore true exactly when
value ≥ 2^256. -/
theorem C6_set_c_z_m_l (m : Machine) (val : Nat) :
    ((set_c_z_m_l m val).Z = true ↔ val % 2 ^ 256 = 0) ∧
    (set_c_z_m_l m val).M = Nat.testBit val 255 ∧
    (set_c_z_m_l m val).L = Nat.testBit val 0 ∧
    (set_c_z_m_l m val).C = Nat.testBit val 256 ∧
    (val < 2 ^ 257 → ((set_c_z_m_l m val).C = true ↔ 2 ^ 256 ≤ val)) := by
  have hZ : (set_c_z_m_l m val).Z = ((val &&& xlen_mask) == 0) := rfl
  have hM : (set_c_z_m_l m val).M = test_bit val (XLEN - 1) := rfl
  have hL : (set_c_z_m_l m val).L = test_bit val 0 := rfl
  have hC : (set_c_z_m_l m val).C = test_bit val XLEN := rfl
  have hC256 : (set_c_z_m_l m val).C = Nat.testBit val 256 := by
    rw [hC, test_bit_eq_testBit]
    norm_num [XLEN]
  refine ⟨?_, ?_, ?_, hC256, ?_⟩
  · rw [hZ]
    have hand : val &&& xlen_mask = val % 2 ^ 256 := by
      have h := Nat.and_pow_two_sub_one_eq_mod val 256
      simpa [xlen_mask, XLEN] using h
    simp [hand]
  · rw [hM, test_bit_eq_testBit]
    norm_num [XLEN]
  · rw [hL, test_bit_eq_testBit]
  · intro hlt
    rw [hC256]
    constructor
    · intro ht
      exact Nat.testBit_implies_ge ht
    · intro hge
      by_contra hf
      have hfalse : Nat.testBit val 256 = false := by
        cases hb : Nat.testBit val 256
        · rfl
        · exact absurd hb hf
      have hlow : val < 2 ^ 256 := by
        apply Nat.lt_pow_two_of_testBit
        intro i hi
        rcases Nat.eq_or_lt_of_le hi with heq | hgt
        · rw [← heq]; exact hfalse
        · exact Nat.testBit_lt_two_pow
            (Nat.lt_of_lt_of_le hlt (Nat.pow_le_pow_right (by omega) hgt))
      exact absurd hge (Nat.not_le.mpr hlow)

/-- C6 witness: at the boundary value 2^256 (< 2^257), C comes out true,
matching the comparison with 2^256. -/
theorem C6_set_c_z_m_l_witness :
    (set_c_z_m_l empty_machine (2 ^ 256)).C = true ↔ 2 ^ 256 ≤ 2 ^ 256 :=
  (C6_set_c_z_m_l empty_machine (2 ^ 256)).2.2.2.2
    (Nat.pow_lt_pow_right (by omega) (by omega))

/-- A machine on a 5-instruction program whose pc sits on a breakpoint
with required passes 2 and pass counter 2. -/
def mBp : Machine := { init_machine [] 5 with breakpoints := [(3, 2, 2)], pc := 3 }

/-- C8: with no active force-break, when the current pc has breakpoint
entry (P, C) the check breaks exactly when C equals P, resetting the
entry to (P, 1); otherwise it does not break and the entry becomes
(P, C+1); entries at other addresses are untouched.  Toggling a new
in-range address installs it with (passes, counter 1) and toggling an
existing address removes it, leaving other entries unchanged. -/
theorem C8_breakpoints (m : Machine) (P C addr passes : Nat)
    (hfb : m.force_break.active = false) :
    (bp_lookup m.breakpoints m.pc = some (P, C) → C = P →
      check_break m = ({ m with breakpoints := bp_set m.breakpoints m.pc P 1 }, true, P)) ∧
    (bp_lookup m.breakpoints m.pc = some (P, C) → C ≠ P →
      check_break m =
        ({ m with breakpoints := bp_set m.breakpoints m.pc P (C + 1) }, false, 0)) ∧
    bp_lookup (bp_set m.breakpoints m.pc P 1) m.pc = some (P, 1) ∧
    bp_lookup (bp_set m.breakpoints m.pc P (C + 1)) m.pc = some (P, C + 1) ∧
    (∀ a p c, a ≠ m.pc →
      bp_lookup (bp_set m.breakpoints m.pc p c) a = bp_lookup m.breakpoints a) ∧
    (bp_lookup m.breakpoints addr = none → addr < IMEM_DEPTH →
      toggle_breakpoint m addr passes =
        { m with breakpoints := bp_set m.breakpoints addr passes 1 }) ∧
    (∀ pp cc, bp_lookup m.breakpoints addr = some (pp, cc) →
      toggle_breakpoint m addr passes =
        { m with breakpoints := bp_remove m.breakpoints addr }) ∧
    ((m.breakpoints.map Prod.fst).Nodup →
      bp_lookup (bp_remove m.breakpoints addr) addr = none) ∧
    (∀ a, a ≠ addr →
      bp_lookup (bp_remove m.breakpoints addr) a = bp_lookup m.breakpoints a) := by
  refine ⟨?_, ?_, bp_lookup_set_self _ _ _ _, bp_lookup_set_self _ _ _ _,
         fun a p c h => bp_lookup_set_ne _ _ _ _ _ h, ?_, ?_,
         fun h => bp_lookup_remove_self _ _ h,
         fun a h => bp_lookup_remove_ne _ _ _ h⟩
  · intro hlk hCP
    have hne : m.breakpoints ≠ [] := by
      intro hnil
      rw [hnil] at hlk
      simp [bp_lookup] at hlk
    subst hCP
    simp [check_break, hfb, check_break_bps, hne, hlk]
  · intro hlk hCP
    have hne : m.breakpoints ≠ [] := by
      intro hnil
      rw [hnil] at hlk
      simp [bp_lookup] at hlk
    simp [check_break, hfb, check_break_bps, hne, hlk, hCP]
  · intro hnone hrange
    simp [toggle_breakpoint, hnone, hrange]
  · intro pp cc hsome
    simp [toggle_breakpoint, hsome]

/-- C8 witness: on a concrete machine with entry (2, 2) at the current pc
the check breaks and resets the counter; toggling address 3 on a machine
without breakpoints installs (2, 1). -/
theorem C8_breakpoints_witness :
    check_break mBp = ({ mBp with breakpoints := bp_set mBp.breakpoints mBp.pc 2 1 }, true, 2) ∧
    toggle_breakpoint (init_machine [] 5) 3 2 =
      { init_machine [] 5 with breakpoints := bp_set (init_machine [] 5).breakpoints 3 2 1 } :=
  ⟨(C8_breakpoints mBp 2 2 0 1 rfl).1 rfl rfl,
   (C8_breakpoints (init_machine [] 5) 2 2 3 2 rfl).2.2.2.2.2.1 rfl (by decide)⟩

/-- C1 counterexample: on a 2-instruction machine with an empty loop
stack, an execute returning the in-bounds jump target 0 does not set the
pc to 0: the jump target is tested with `if jump_addr:`, 0 is falsy, and
the pc is incremented to 1 instead. -/
theorem C1_step_jump_counterexample :
    step (fun x => x) (fun x => (x, some 0)) (init_machine [] 2) =
      Except.ok ({ init_machine [] 2 with pc := 1 }, true) ∧ (1 : Nat) ≠ 0 :=
  ⟨rfl, by decide⟩

/-- C1 amended: for every step call in which the instruction's execute
returns a nonzero jump target that survives the loop epilogue, the pc is
set to that target when it lies within instruction-memory bounds, and a
nonzero jump target outside instruction-memory bounds is fatal; a jump
target of 0 is treated as absent (the source tests it for truthiness), so
the pc advances sequentially instead. -/
theorem C1_step_jump (onBreak : Machine → Machine)
    (exec : Machine → Machine × Option Int) (m m1 m2 m3 : Machine) (j : Int)
    (hm1 : (if (check_break m).2.1 then onBreak (check_break m).1
            else (check_break m).1) = m1)
    (hfetch : m1.pc < m1.imem_len)
    (hexec : exec m1 = (m2, some j))
    (hepi : loop_epilogue m2 (some j) = (m3, some j))
    (hj : j ≠ 0) :
    (0 ≤ j → j < (m3.imem_len : Int) →
      step onBreak exec m =
        Except.ok ({ m3 with pc := j.toNat },
          if (Int.ofNat m.pc) == m.stop_addr then false else true)) ∧
    ((j < 0 ∨ (m3.imem_len : Int) ≤ j) →
      step onBreak exec m = Except.error "Invalid jump address") := by
  have hlt : ¬ (m1.pc ≥ m1.imem_len) := Nat.not_le.mpr hfetch
  have htr : opt_truthy_int (some j) = true := by
    simp [opt_truthy_int, bne_iff_ne, hj]
  constructor
  · intro h0 hlen
    have hb : ¬ (j < 0 ∨ (m3.imem_len : Int) ≤ j) := by omega
    simp only [step, hm1, if_neg hlt, hexec, hepi, htr, if_true, if_neg hb,
               Except.map, Option.getD_some]
  · intro hb
    simp only [step, hm1, if_neg hlt, hexec, hepi, htr, if_true, if_pos hb,
               Except.map, Option.getD_some]

/-- C1 witness: on a 3-instruction machine an execute returning jump
target 2 makes step set the pc to 2 and continue. -/
theorem C1_step_jump_witness :
    step (fun x => x) (fun x => (x, some 2)) (init_machine [] 3) =
      Except.ok ({ init_machine [] 3 with pc := (2 : Int).toNat },
        if (Int.ofNat (init_machine [] 3).pc) == (init_machine [] 3).stop_addr
        then false else true) :=
  (C1_step_jump (fun x => x) (fun x => (x, some 2)) (init_machine [] 3)
    (init_machine [] 3) (init_machine [] 3) (init_machine [] 3) 2
    rfl (by decide) rfl rfl (by decide)).1 (by decide) (by decide)

end OtDsim
